import Mathlib

/-!
Shallow embedding of the mock-crust network simulator
(`src/mock_crust/support.rs`) from the `routing` repository.

Rust types are translated as follows.

* `Endpoint(usize)` becomes `Nat`.
* `Packet<UID>` and the crust events become inductives parametrised by the
  identity type `UID` (the Rust code is generic over `UID: Uid`).
* `Vec<u8>` message payloads become `List Nat`.
* `BTreeMap<(Endpoint, Endpoint), VecDeque<Packet>>` (the pending-packet
  queue) becomes an association list `List ((Nat × Nat) × List (Packet UID))`
  whose entries have unique keys.  `BTreeMap` iterates keys in sorted order;
  our list keeps insertion order.  The only consumer of the key order is the
  seeded scheduler, and the scheduler's random choice is modelled as an
  arbitrary stream of naturals, so the correspondence between stream values
  and keys is the only thing the order affects; every theorem below
  quantifies over (or exhibits) the stream, never relying on a particular
  key order.
* `HashMap<Endpoint, Weak<RefCell<ServiceImpl>>>` becomes an association
  list `List (Nat × ServiceState UID)`; a dropped service (dead weak
  reference) is simply absent from the list.
* `HashSet<(Endpoint, Endpoint)>` for the blocked/delayed sets becomes a
  `List (Nat × Nat)` used only through membership.
* `SeededRng` is modelled as a stream (`List Nat`) of choices: each call of
  `rng.choose(&keys)` on a non-empty `keys` consumes the head `h` and picks
  index `h % keys.length`; on an empty slice `choose` returns `None` without
  consuming randomness, as in the `rand` crate.
* The crust event sender is modelled as a per-service event log
  (`events : List (CrustEvent UID)`): `send_event` appends.  Every claim
  below concerns services whose session has started, i.e. whose event
  sender is set, so the `unwrap!` on the sender cannot fire.
* `unwrap!` panics that depend on program state (`unwrap!(self.uid)`, the
  `unreachable!` in `handle_message`, the service lookups in
  `lost_connection`) are modelled by returning `none` from an
  `Option`-valued function.
-/

namespace MockCrust

/-- Endpoint is `struct Endpoint(pub usize)`: a plain numeric identifier. -/
abbrev Endpoint := Nat

/-- Directed pair key of the pending-packet queue: (origin, destination). -/
abbrev PairKey := Endpoint × Endpoint

/-- CrustUser: the role a bootstrapping node announces (`CrustUser` enum). -/
inductive CrustUser where
  | node : CrustUser
  | client : CrustUser
deriving DecidableEq, Repr

/-- Packet: the closed protocol alphabet (`enum Packet<UID>`). -/
inductive Packet (UID : Type) where
  | bootstrapRequest : UID → CrustUser → Packet UID
  | bootstrapSuccess : UID → Packet UID
  | bootstrapFailure : Packet UID
  | connectRequest : UID → UID → Packet UID
  | connectSuccess : UID → UID → Packet UID
  | connectFailure : UID → UID → Packet UID
  | message : List Nat → Packet UID
  | disconnect : Packet UID
deriving DecidableEq, Repr

/-- Crust events delivered to a service's owner (`CrustEvent` / `Event`).
`SocketAddr` values are represented by their port `Nat`, because
`to_socket_addr` uses a fixed IP and maps an endpoint to its port. -/
inductive CrustEvent (UID : Type) where
  | listenerStarted : Nat → CrustEvent UID
  | bootstrapAccept : UID → CrustUser → CrustEvent UID
  | bootstrapConnect : UID → Nat → CrustEvent UID
  | bootstrapFailed : CrustEvent UID
  | connectSuccess : UID → CrustEvent UID
  | connectFailure : UID → CrustEvent UID
  | lostPeer : UID → CrustEvent UID
  | newMessage : UID → List Nat → CrustEvent UID
  | connectionInfoPrepared : Nat → UID → Endpoint → CrustEvent UID
deriving DecidableEq, Repr

/-- `to_failure`: the canonical failure counterpart of a request packet. -/
def Packet.toFailure {UID : Type} : Packet UID → Option (Packet UID)
  | .bootstrapRequest _ _ => some .bootstrapFailure
  | .connectRequest ourId theirId => some (.connectFailure theirId ourId)
  | _ => none

/-- `fn to_socket_addr`: endpoint to socket address; the IP part is a
constant, so the address is determined by the port `endpoint.0 as u16`. -/
def toSocketAddr (ep : Endpoint) : Nat := ep % 65536

/-- `ServiceImpl<UID>` state.  `config` is inlined as its single field
`hard_coded_contacts`.  The `network` back-reference is implicit: operations
that touch both the service and the network are defined on `NetState`. -/
structure ServiceState (UID : Type) where
  endpoint : Endpoint
  uid : Option UID
  hardCodedContacts : List Endpoint
  listeningTcp : Bool
  pendingBootstraps : Nat
  connections : List (UID × Endpoint)
  whitelist : List Endpoint
  events : List (CrustEvent UID)
deriving DecidableEq, Repr

/-- `NetworkImpl<UID>` state. -/
structure NetState (UID : Type) where
  services : List (Endpoint × ServiceState UID)
  minSectionSize : Nat
  nextEndpoint : Nat
  queue : List (PairKey × List (Packet UID))
  blocked : List PairKey
  delayed : List PairKey
  rng : List Nat
  messageSent : Bool
deriving DecidableEq, Repr

section Ops

variable {UID : Type} [DecidableEq UID]

/-- Association-list lookup (first matching key). -/
def alookup {α β : Type _} [DecidableEq α] : List (α × β) → α → Option β
  | [], _ => none
  | (k, v) :: rest, key => if key = k then some v else alookup rest key

/-- Replace the value stored under the first occurrence of a key. -/
def aset {α β : Type _} [DecidableEq α] : List (α × β) → α → β → List (α × β)
  | [], _, _ => []
  | (k, v) :: rest, key, w =>
      if key = k then (k, w) :: rest else (k, v) :: aset rest key w

/-- Remove the first occurrence of a key (BTreeMap `remove_entry`). -/
def aerase {α β : Type _} [DecidableEq α] : List (α × β) → α → List (α × β)
  | [], _ => []
  | (k, v) :: rest, key => if key = k then rest else (k, v) :: aerase rest key

/-- `queue.entry(key).or_insert_with(VecDeque::new).push_back(packet)`. -/
def queuePush : List (PairKey × List (Packet UID)) → PairKey → Packet UID →
    List (PairKey × List (Packet UID))
  | [], key, p => [(key, [p])]
  | (k, q) :: rest, key, p =>
      if key = k then (k, q ++ [p]) :: rest else (k, q) :: queuePush rest key p

/-- `Network::send`: enqueue a packet and record that a message was sent. -/
def netSend (s : NetState UID) (sender receiver : Endpoint) (p : Packet UID) :
    NetState UID :=
  { s with messageSent := true, queue := queuePush s.queue (sender, receiver) p }

/-- `Network::drop_pending`: clear the deque of one directed pair in place.
Note it does not remove the (now empty) map entry. -/
def dropPending (s : NetState UID) (sender receiver : Endpoint) : NetState UID :=
  match alookup s.queue (sender, receiver) with
  | none => s
  | some _ => { s with queue := aset s.queue (sender, receiver) [] }

/-- `Network::drop_all_pending`: clear the whole queue map. -/
def dropAllPending (s : NetState UID) : NetState UID :=
  { s with queue := [] }

/-- `Network::connection_blocked`. -/
def connectionBlocked (s : NetState UID) (sender receiver : Endpoint) : Prop :=
  (sender, receiver) ∈ s.blocked

instance (s : NetState UID) (a b : Endpoint) : Decidable (connectionBlocked s a b) := by
  unfold connectionBlocked; infer_instance

/-- `Network::block_connection` (HashSet insert). -/
def blockConnection (s : NetState UID) (sender receiver : Endpoint) : NetState UID :=
  if (sender, receiver) ∈ s.blocked then s
  else { s with blocked := (sender, receiver) :: s.blocked }

/-- `Network::unblock_connection` (HashSet remove). -/
def unblockConnection (s : NetState UID) (sender receiver : Endpoint) : NetState UID :=
  { s with blocked := s.blocked.erase (sender, receiver) }

/-- `Network::delay_connection` (HashSet insert). -/
def delayConnection (s : NetState UID) (sender receiver : Endpoint) : NetState UID :=
  if (sender, receiver) ∈ s.delayed then s
  else { s with delayed := (sender, receiver) :: s.delayed }

/-- `Network::find_service`: resolve the weak reference for an endpoint. -/
def findService (s : NetState UID) (ep : Endpoint) : Option (ServiceState UID) :=
  alookup s.services ep

/-- Store an updated service state back under its endpoint. -/
def updService (s : NetState UID) (ep : Endpoint) (svc : ServiceState UID) :
    NetState UID :=
  { s with services := aset s.services ep svc }

/-- `Network::gen_endpoint`. -/
def genEndpoint (s : NetState UID) (optEndpoint : Option Endpoint) :
    Endpoint × NetState UID :=
  let ep := match optEndpoint with
    | some e => e
    | none => s.nextEndpoint
  (ep, { s with nextEndpoint := max s.nextEndpoint (ep + 1) })

/-- `send_event`: deliver one crust event, modelled by appending to the
service's event log. -/
def pushEvent (svc : ServiceState UID) (e : CrustEvent UID) : ServiceState UID :=
  { svc with events := svc.events ++ [e] }

/-- `Vec::swap_remove(i)`: remove index `i`, filling the gap with the last
element. -/
def swapRemove {α : Type _} (l : List α) (i : Nat) : List α :=
  match l.getLast? with
  | none => l
  | some last => (l.set i last).dropLast

/-- Position of the first connection entry with the given identity
(`self.connections.iter().position(|&(id, _)| id == *uid)`). -/
def connPosByUid : List (UID × Endpoint) → UID → Option Nat
  | [], _ => none
  | (id, _) :: rest, uid =>
      if id = uid then some 0 else (connPosByUid rest uid).map (· + 1)

/-- Position of the first connection entry with the given endpoint. -/
def connPosByEndpoint : List (UID × Endpoint) → Endpoint → Option Nat
  | [], _ => none
  | (_, ep) :: rest, endpoint =>
      if ep = endpoint then some 0 else (connPosByEndpoint rest endpoint).map (· + 1)

/-- `remove_connection_by_uid`: remove the connected peer with the given
identity and return its endpoint (with `swap_remove` semantics). -/
def removeConnectionByUid (svc : ServiceState UID) (uid : UID) :
    Option Endpoint × ServiceState UID :=
  match connPosByUid svc.connections uid with
  | none => (none, svc)
  | some i =>
      ((svc.connections.get? i).map Prod.snd,
       { svc with connections := swapRemove svc.connections i })

/-- `remove_connection_by_endpoint`: remove the connected peer with the
given endpoint and return its identity. -/
def removeConnectionByEndpoint (svc : ServiceState UID) (endpoint : Endpoint) :
    Option UID × ServiceState UID :=
  match connPosByEndpoint svc.connections endpoint with
  | none => (none, svc)
  | some i =>
      ((svc.connections.get? i).map Prod.fst,
       { svc with connections := swapRemove svc.connections i })

/-- `find_endpoint_by_uid`. -/
def findEndpointByUid : List (UID × Endpoint) → UID → Option Endpoint
  | [], _ => none
  | (id, ep) :: rest, uid => if id = uid then some ep else findEndpointByUid rest uid

/-- `find_uid_by_endpoint`. -/
def findUidByEndpoint : List (UID × Endpoint) → Endpoint → Option UID
  | [], _ => none
  | (id, ep) :: rest, endpoint =>
      if ep = endpoint then some id else findUidByEndpoint rest endpoint

/-- `ServiceImpl::is_connected`: an exact `(uid, endpoint)` entry exists. -/
def isConnected (svc : ServiceState UID) (endpoint : Endpoint) (uid : UID) : Prop :=
  (uid, endpoint) ∈ svc.connections

instance (svc : ServiceState UID) (ep : Endpoint) (uid : UID) :
    Decidable (isConnected svc ep uid) := by
  unfold isConnected; infer_instance

/-- `add_connection`: push the `(uid, endpoint)` pair unless the exact pair
is already present; returns whether it was added. -/
def addConnection (svc : ServiceState UID) (uid : UID) (peerEndpoint : Endpoint) :
    Bool × ServiceState UID :=
  if (uid, peerEndpoint) ∈ svc.connections then (false, svc)
  else (true, { svc with connections := svc.connections ++ [(uid, peerEndpoint)] })

/-- `add_rendezvous_connection`: add the connection (idempotently) and then
deliver `ConnectSuccess` unconditionally. -/
def addRendezvousConnection (svc : ServiceState UID) (uid : UID)
    (peerEndpoint : Endpoint) : ServiceState UID :=
  pushEvent (addConnection svc uid peerEndpoint).2 (.connectSuccess uid)

/-- `decrement_pending_bootstraps`: guarded decrement; fires
`BootstrapFailed` exactly when the counter hits zero with no connections. -/
def decrementPendingBootstraps (svc : ServiceState UID) : ServiceState UID :=
  if svc.pendingBootstraps = 0 then svc
  else
    let svc1 : ServiceState UID :=
      { svc with pendingBootstraps := svc.pendingBootstraps - 1 }
    if svc1.pendingBootstraps = 0 ∧ svc1.connections = [] then
      pushEvent svc1 .bootstrapFailed
    else svc1

/-- `handle_bootstrap_accept`: register the connection, then deliver
`BootstrapAccept`. -/
def handleBootstrapAccept (svc : ServiceState UID) (peerEndpoint : Endpoint)
    (uid : UID) (kind : CrustUser) : ServiceState UID :=
  pushEvent (addConnection svc uid peerEndpoint).2 (.bootstrapAccept uid kind)

/-- `handle_bootstrap_request`: accept and reply with success when
listening, else reply with failure.  The success reply carries
`unwrap!(self.uid)`, so a missing identity is a panic (`none`). -/
def handleBootstrapRequest (svc : ServiceState UID) (peerEndpoint : Endpoint)
    (uid : UID) (kind : CrustUser) :
    Option (ServiceState UID × List (Endpoint × Packet UID)) :=
  if svc.listeningTcp then
    match svc.uid with
    | none => none
    | some myUid =>
        some (handleBootstrapAccept svc peerEndpoint uid kind,
              [(peerEndpoint, .bootstrapSuccess myUid)])
  else some (svc, [(peerEndpoint, .bootstrapFailure)])

/-- `handle_bootstrap_success`: register, deliver `BootstrapConnect`, then
decrement the outstanding-bootstrap counter. -/
def handleBootstrapSuccess (svc : ServiceState UID) (peerEndpoint : Endpoint)
    (uid : UID) : ServiceState UID :=
  decrementPendingBootstraps
    (pushEvent (addConnection svc uid peerEndpoint).2
      (.bootstrapConnect uid (toSocketAddr peerEndpoint)))

/-- `handle_bootstrap_failure`: just the guarded decrement. -/
def handleBootstrapFailure (svc : ServiceState UID) : ServiceState UID :=
  decrementPendingBootstraps svc

/-- `handle_connect_request`: ignore when the exact `(their_id, origin)`
connection already exists; otherwise add, deliver `ConnectSuccess`, and
reply with a connect-success packet carrying `unwrap!(self.uid)`. -/
def handleConnectRequest (svc : ServiceState UID) (peerEndpoint : Endpoint)
    (theirId : UID) :
    Option (ServiceState UID × List (Endpoint × Packet UID)) :=
  if isConnected svc peerEndpoint theirId then some (svc, [])
  else
    match svc.uid with
    | none => none
    | some myUid =>
        some (addRendezvousConnection svc theirId peerEndpoint,
              [(peerEndpoint, .connectSuccess myUid theirId)])

/-- `handle_connect_success`. -/
def handleConnectSuccess (svc : ServiceState UID) (peerEndpoint : Endpoint)
    (theirId : UID) : ServiceState UID :=
  addRendezvousConnection svc theirId peerEndpoint

/-- `handle_connect_failure`. -/
def handleConnectFailure (svc : ServiceState UID) (theirId : UID) :
    ServiceState UID :=
  pushEvent svc (.connectFailure theirId)

/-- `handle_message`: deliver `NewMessage` when the origin maps to a
recorded connection; otherwise the Rust code hits `unreachable!`, modelled
as `none`. -/
def handleMessage (svc : ServiceState UID) (peerEndpoint : Endpoint)
    (data : List Nat) : Option (ServiceState UID) :=
  match findUidByEndpoint svc.connections peerEndpoint with
  | some uid => some (pushEvent svc (.newMessage uid data))
  | none => none

/-- `handle_disconnect`: remove the connection keyed by origin; deliver
`LostPeer` only when something was removed. -/
def handleDisconnect (svc : ServiceState UID) (peerEndpoint : Endpoint) :
    ServiceState UID :=
  match removeConnectionByEndpoint svc peerEndpoint with
  | (some uid, svc1) => pushEvent svc1 (.lostPeer uid)
  | (none, svc1) => svc1

/-- `receive_packet`: dispatch by packet kind.  The result is the updated
service state together with the packets it sent (in order); `none` models a
panic. -/
def receivePacket (svc : ServiceState UID) (sender : Endpoint) :
    Packet UID → Option (ServiceState UID × List (Endpoint × Packet UID))
  | .bootstrapRequest uid kind => handleBootstrapRequest svc sender uid kind
  | .bootstrapSuccess uid => some (handleBootstrapSuccess svc sender uid, [])
  | .bootstrapFailure => some (handleBootstrapFailure svc, [])
  | .connectRequest theirId _ => handleConnectRequest svc sender theirId
  | .connectSuccess theirId _ => some (handleConnectSuccess svc sender theirId, [])
  | .connectFailure theirId _ => some (handleConnectFailure svc theirId, [])
  | .message data => (handleMessage svc sender data).map (fun s1 => (s1, []))
  | .disconnect => some (handleDisconnect svc sender, [])

/-- Eligible keys of the selection policy inside `pop_packet`: all queue
map keys when every key is delayed, otherwise exactly the non-delayed
keys. -/
def eligibleKeys (s : NetState UID) : List PairKey :=
  let keys := s.queue.map Prod.fst
  if keys.all (fun k => decide (k ∈ s.delayed)) then keys
  else keys.filter (fun k => decide (k ∉ s.delayed))

/-- `Network::pop_packet`: choose an eligible directed pair with the seeded
rng, pop the front of its deque, and remove the map entry if it drained to
empty.  The rng consumes one stream value whenever the eligible key list is
non-empty (`rng.choose` on a non-empty slice).  The state is returned in
either case because the rng mutation persists. -/
def popPacket (s : NetState UID) :
    Option (Endpoint × Endpoint × Packet UID) × NetState UID :=
  let keys := eligibleKeys s
  if keys = [] then (none, s)
  else
    let idx := s.rng.headD 0 % keys.length
    let s1 : NetState UID := { s with rng := s.rng.tail }
    match keys.get? idx with
    | none => (none, s1)
    | some (sender, receiver) =>
        match alookup s1.queue (sender, receiver) with
        | none => (none, s1)
        | some [] => (none, s1)
        | some (p :: rest) =>
            let s2 : NetState UID :=
              if rest = [] then { s1 with queue := aerase s1.queue (sender, receiver) }
              else { s1 with queue := aset s1.queue (sender, receiver) rest }
            (some (sender, receiver, p), s2)

/-- Send every packet a handler produced, in order, from the given
origin (`self.network.send(self.endpoint, receiver, packet)`). -/
def netSendAll (s : NetState UID) (src : Endpoint) :
    List (Endpoint × Packet UID) → NetState UID
  | [] => s
  | (dst, p) :: rest => netSendAll (netSend s src dst p) src rest

/-- The fall-through part of `Network::process_packet` (the second `if let`
chain): hand the packet to the destination service, or — when the
destination is gone — send its failure counterpart (if any) in reverse,
else drop it silently. -/
def deliverPacket (s : NetState UID) (sender receiver : Endpoint)
    (p : Packet UID) : Option (NetState UID) :=
  match findService s receiver with
  | some svc =>
      match receivePacket svc sender p with
      | none => none
      | some (svc1, outs) => some (netSendAll (updService s receiver svc1) receiver outs)
  | none =>
      match p.toFailure with
      | some failure => some (netSend s receiver sender failure)
      | none => some s

/-- `Network::process_packet`: a blocked pair turns a request-class packet
into its failure counterpart sent in reverse and stops; every other packet
falls through to normal delivery. -/
def processPacket (s : NetState UID) (sender receiver : Endpoint)
    (p : Packet UID) : Option (NetState UID) :=
  match (if connectionBlocked s sender receiver then p.toFailure else none) with
  | some failure => some (netSend s receiver sender failure)
  | none => deliverPacket s sender receiver p

/-- Packet weight for the drain-termination measure: a request-class packet
can cause at most one lighter reply, every other packet causes none. -/
def pweight : Packet UID → Nat
  | .bootstrapRequest _ _ => 2
  | .connectRequest _ _ => 2
  | _ => 1

/-- Total weight of a pending-packet queue. -/
def queueWeight : List (PairKey × List (Packet UID)) → Nat
  | [] => 0
  | (_, q) :: rest => (q.map pweight).sum + queueWeight rest

/-- Total weight of all packets pending in a network state. -/
def weight (s : NetState UID) : Nat := queueWeight s.queue

/-- One fuelled unfolding of the `while let` loop in `Network::poll`. -/
def pollFuel : Nat → NetState UID → Option (NetState UID)
  | 0, s => some s
  | fuel + 1, s =>
      match popPacket s with
      | (none, s1) => some s1
      | (some (sender, receiver, p), s1) =>
          match processPacket s1 sender receiver p with
          | none => none
          | some s2 => pollFuel fuel s2

/-- `Network::poll`: drain the queue until `pop_packet` returns `None`.
Each successful iteration strictly decreases `weight` (see
`pollStep_weight_lt` below), so `weight s + 1` units of fuel are enough for
the fuelled loop to stop at exactly the state where the Rust loop stops;
`pollFuel_congr` makes the fuel-independence precise. -/
def poll (s : NetState UID) : Option (NetState UID) :=
  pollFuel (weight s + 1) s

/-- `Network::lost_connection`: no-op (after one failed removal probe) when
the first node has no connection to the second; otherwise removes the
connection on both sides and delivers `LostPeer` to both.  The `unwrap!`s
on the service lookups and identities are modelled as `none`. -/
def lostConnection (s : NetState UID) (node1 node2 : Endpoint) :
    Option (NetState UID) :=
  match findService s node1 with
  | none => none
  | some svc1 =>
      match removeConnectionByEndpoint svc1 node2 with
      | (none, _) => some s
      | (some _, svc1') =>
          match findService s node2 with
          | none => none
          | some svc2 =>
              let svc2' := (removeConnectionByEndpoint svc2 node1).2
              match svc2'.uid, svc1'.uid with
              | some u2, some u1 =>
                  some { s with
                         services :=
                           aset (aset s.services node1 (pushEvent svc1' (.lostPeer u2)))
                             node2 (pushEvent svc2' (.lostPeer u1)) }
              | _, _ => none

/-- `Network::send_crust_event`. -/
def sendCrustEvent (s : NetState UID) (node : Endpoint) (e : CrustEvent UID) :
    Option (NetState UID) :=
  match findService s node with
  | none => none
  | some svc => some (updService s node (pushEvent svc e))

/-- `Network::reset_message_sent`. -/
def resetMessageSent (s : NetState UID) : Bool × NetState UID :=
  (s.messageSent, { s with messageSent := false })

/-- `ServiceImpl::start_bootstrap` for the service at `ep`: one bootstrap
request per hard-coded contact other than self and the blacklisted
addresses; an immediate `BootstrapFailed` when none was sent; the
outstanding counter is set to the number of requests sent.  The identity is
unwrapped only when a request is actually built. -/
def startBootstrap (s : NetState UID) (ep : Endpoint) (blacklist : List Nat)
    (kind : CrustUser) : Option (NetState UID) :=
  match findService s ep with
  | none => none
  | some svc =>
      let eligible := svc.hardCodedContacts.filter
        (fun c => decide (c ≠ ep ∧ toSocketAddr c ∉ blacklist))
      if eligible = [] then
        some (updService s ep
          (pushEvent { svc with pendingBootstraps := 0 } .bootstrapFailed))
      else
        match svc.uid with
        | none => none
        | some myUid =>
            let s1 := eligible.foldl
              (fun acc c => netSend acc ep c (.bootstrapRequest myUid kind)) s
            some (updService s1 ep { svc with pendingBootstraps := eligible.length })

/-- `ServiceImpl::send_message` for the service at `ep`. -/
def sendMessage (s : NetState UID) (ep : Endpoint) (uid : UID) (data : List Nat) :
    Bool × NetState UID :=
  match findService s ep with
  | none => (false, s)
  | some svc =>
      match findEndpointByUid svc.connections uid with
      | some peerEp => (true, netSend s ep peerEp (.message data))
      | none => (false, s)

/-- `PubConnectionInfo` (identity plus endpoint); `PrivConnectionInfo` has
the same shape. -/
structure ConnectionInfo (UID : Type) where
  id : UID
  endpoint : Endpoint
deriving DecidableEq, Repr

/-- `ServiceImpl::connect` for the service at `ep`: enqueue a connect
request carrying `unwrap!(self.uid)` and the peer's identity, addressed to
the peer's endpoint. -/
def connect (s : NetState UID) (ep : Endpoint) (theirInfo : ConnectionInfo UID) :
    Option (NetState UID) :=
  match findService s ep with
  | none => none
  | some svc =>
      match svc.uid with
      | none => none
      | some myUid =>
          some (netSend s ep theirInfo.endpoint (.connectRequest myUid theirInfo.id))

/-- `ServiceImpl::disconnect` for the service at `ep`: when connected to
`uid`, remove the local entry, drop pending packets in both directions,
and enqueue a disconnect notice; report whether a connection existed. -/
def disconnect (s : NetState UID) (ep : Endpoint) (uid : UID) :
    Bool × NetState UID :=
  match findService s ep with
  | none => (false, s)
  | some svc =>
      match removeConnectionByUid svc uid with
      | (none, _) => (false, s)
      | (some peerEp, svc1) =>
          let s1 := updService s ep svc1
          let s2 := dropPending s1 ep peerEp
          let s3 := dropPending s2 peerEp ep
          (true, netSend s3 ep peerEp .disconnect)

/-- `ServiceImpl::disconnect_all` for the service at `ep`: clear the whole
network queue, then send a disconnect notice to every connected peer and
drop all local entries. -/
def disconnectAll (s : NetState UID) (ep : Endpoint) : NetState UID :=
  match findService s ep with
  | none => s
  | some svc =>
      let s1 := updService (dropAllPending s) ep { svc with connections := [] }
      svc.connections.foldl (fun acc c => netSend acc ep c.2 .disconnect) s1

end Ops

section Fixtures

/-- Fixture: a started service with no connections, used by the concrete
witnesses and counterexamples below (identity type `Nat`). -/
def svcFix (ep : Endpoint) (u : Nat) : ServiceState Nat :=
  { endpoint := ep, uid := some u, hardCodedContacts := [],
    listeningTcp := false, pendingBootstraps := 0, connections := [],
    whitelist := [], events := [] }

/-- Fixture: a network hosting two started services `0` and `1`. -/
def netFix (rng : List Nat) : NetState Nat :=
  { services := [(0, svcFix 0 10), (1, svcFix 1 11)], minSectionSize := 8,
    nextEndpoint := 2, queue := [], blocked := [], delayed := [],
    rng := rng, messageSent := false }

/-- Fixture for C1: the queue map holds an empty entry for `(1, 0)` (as
`drop_pending` leaves behind) next to a pending disconnect on `(0, 1)`;
the rng stream makes the scheduler pick the empty entry. -/
def c1State : NetState Nat :=
  { netFix [0] with queue := [((1, 0), []), ((0, 1), [Packet.disconnect])] }

/-- Fixture for C2: one pending packet from `1` to `0`. -/
def c2State : NetState Nat :=
  { netFix [] with queue := [((1, 0), [Packet.disconnect])] }

/-- Fixture for C8: the only pair with a non-empty queue, `(0, 1)`, is
delayed, but the map also holds an empty non-delayed entry `(2, 3)`. -/
def c8State : NetState Nat :=
  { netFix [0] with
    queue := [((0, 1), [Packet.message []]), ((2, 3), [])],
    delayed := [(0, 1)] }

/-- Fixture for the C8 witness: a state whose only queue entries are
non-empty and delayed. -/
def c8WitnessState : NetState Nat :=
  { netFix [0] with
    queue := [((0, 1), [Packet.message []])],
    delayed := [(0, 1)] }

/-- Fixture: service `1` with a recorded connection to service `0`. -/
def svcConnTo0 : ServiceState Nat :=
  { svcFix 1 11 with connections := [(10, 0)] }

/-- Fixture: services `0` (no connections) and `1` (connected to `0`),
with a configurable blocked set. -/
def netAsym (blocked : List PairKey) : NetState Nat :=
  { netFix [] with
    services := [(0, svcFix 0 10), (1, svcConnTo0)],
    blocked := blocked }

/-- Fixture: service `0` with a recorded connection to service `1`. -/
def svcMutual0 : ServiceState Nat :=
  { svcFix 0 10 with connections := [(11, 1)] }

/-- Fixture: mutually connected services `0` and `1`, with the given
packets pending from `1` to `0`. -/
def netMutual (pending : List (Packet Nat)) : NetState Nat :=
  { netFix [] with
    services := [(0, svcMutual0), (1, svcConnTo0)],
    queue := [((1, 0), pending)] }

end Fixtures

/-! Helper lemmas about the association-list operations. -/

section ListLemmas

variable {α β : Type _} [DecidableEq α]

theorem alookup_aset_self_of_some {l : List (α × β)} {k : α} {v : β} (w : β)
    (h : alookup l k = some v) : alookup (aset l k w) k = some w := by
  induction l with
  | nil => simp [alookup] at h
  | cons hd tl ih =>
      obtain ⟨k1, v1⟩ := hd
      by_cases hk : k = k1
      · simp [alookup, aset, hk]
      · simp [alookup, aset, hk] at h ⊢
        exact ih h

theorem alookup_aset_ne {l : List (α × β)} {k k' : α} (w : β) (h : k' ≠ k) :
    alookup (aset l k w) k' = alookup l k' := by
  induction l with
  | nil => simp [aset]
  | cons hd tl ih =>
      obtain ⟨k1, v1⟩ := hd
      by_cases hk : k = k1
      · subst hk
        simp [alookup, aset, h]
      · simp [alookup, aset, hk]
        split <;> simp_all [alookup]

theorem aset_of_none {l : List (α × β)} {k : α} (w : β)
    (h : alookup l k = none) : aset l k w = l := by
  induction l with
  | nil => simp [aset]
  | cons hd tl ih =>
      obtain ⟨k1, v1⟩ := hd
      by_cases hk : k = k1
      · simp [alookup, hk] at h
      · simp [alookup, hk] at h
        simp [aset, hk, ih h]

theorem alookup_mem {l : List (α × β)} {k : α} {v : β}
    (h : alookup l k = some v) : (k, v) ∈ l := by
  induction l with
  | nil => simp [alookup] at h
  | cons hd tl ih =>
      obtain ⟨k1, v1⟩ := hd
      by_cases hk : k = k1
      · simp [alookup, hk] at h
        simp [hk, h]
      · simp [alookup, hk] at h
        simp [ih h]

theorem alookup_isSome_of_mem_fst {l : List (α × β)} {k : α}
    (h : k ∈ l.map Prod.fst) : (alookup l k).isSome := by
  induction l with
  | nil => simp at h
  | cons hd tl ih =>
      obtain ⟨k1, v1⟩ := hd
      simp only [List.map_cons, List.mem_cons] at h
      by_cases hk : k = k1
      · simp [alookup, hk]
      · rcases h with h | h
        · exact absurd h hk
        · simpa [alookup, hk] using ih h

end ListLemmas

section QueueLemmas

variable {UID : Type}

theorem alookup_queuePush_self (q : List (PairKey × List (Packet UID)))
    (k : PairKey) (p : Packet UID) :
    alookup (queuePush q k p) k =
      some ((alookup q k).getD [] ++ [p]) := by
  induction q with
  | nil => simp [queuePush, alookup]
  | cons hd tl ih =>
      obtain ⟨k1, v1⟩ := hd
      by_cases hk : k = k1
      · simp [queuePush, alookup, hk]
      · simp [queuePush, alookup, hk, ih]

theorem alookup_queuePush_ne (q : List (PairKey × List (Packet UID)))
    {k k' : PairKey} (p : Packet UID) (h : k' ≠ k) :
    alookup (queuePush q k p) k' = alookup q k' := by
  induction q with
  | nil => simp [queuePush, alookup, h]
  | cons hd tl ih =>
      obtain ⟨k1, v1⟩ := hd
      by_cases hk : k = k1
      · subst hk
        simp [queuePush, alookup, h]
      · by_cases hk' : k' = k1
        · simp [queuePush, alookup, hk, hk']
        · simp [queuePush, alookup, hk, hk', ih]

end QueueLemmas

/-! Helper lemmas about connection-list search and `swap_remove`. -/

section ConnLemmas

variable {UID : Type} [DecidableEq UID]

theorem connPosByUid_eq_none {l : List (UID × Endpoint)} {uid : UID}
    (h : ∀ c ∈ l, c.1 ≠ uid) : connPosByUid l uid = none := by
  induction l with
  | nil => simp [connPosByUid]
  | cons hd tl ih =>
      have h1 : hd.1 ≠ uid := h hd (by simp)
      simp [connPosByUid, h1, ih (fun c hc => h c (by simp [hc]))]

theorem connPosByEndpoint_eq_none {l : List (UID × Endpoint)} {ep : Endpoint}
    (h : ∀ c ∈ l, c.2 ≠ ep) : connPosByEndpoint l ep = none := by
  induction l with
  | nil => simp [connPosByEndpoint]
  | cons hd tl ih =>
      have h1 : hd.2 ≠ ep := h hd (by simp)
      simp [connPosByEndpoint, h1, ih (fun c hc => h c (by simp [hc]))]

theorem connPosByUid_append (pre post : List (UID × Endpoint)) (uid : UID)
    (ep : Endpoint) (hpre : ∀ c ∈ pre, c.1 ≠ uid) :
    connPosByUid (pre ++ (uid, ep) :: post) uid = some pre.length := by
  induction pre with
  | nil => simp [connPosByUid]
  | cons hd tl ih =>
      have h1 : hd.1 ≠ uid := hpre hd (by simp)
      simp [connPosByUid, h1, ih (fun c hc => hpre c (by simp [hc]))]

theorem connPosByEndpoint_append (pre post : List (UID × Endpoint)) (uid : UID)
    (ep : Endpoint) (hpre : ∀ c ∈ pre, c.2 ≠ ep) :
    connPosByEndpoint (pre ++ (uid, ep) :: post) ep = some pre.length := by
  induction pre with
  | nil => simp [connPosByEndpoint]
  | cons hd tl ih =>
      have h1 : hd.2 ≠ ep := hpre hd (by simp)
      simp [connPosByEndpoint, h1, ih (fun c hc => hpre c (by simp [hc]))]

theorem get?_append_cons {α : Type _} (pre post : List α) (x : α) :
    (pre ++ x :: post).get? pre.length = some x := by
  induction pre with
  | nil => rfl
  | cons hd tl ih => simpa using ih

theorem swapRemove_append_cons_perm {α : Type _} (pre post : List α) (x : α) :
    (swapRemove (pre ++ x :: post) pre.length).Perm (pre ++ post) := by
  rcases post.eq_nil_or_concat with rfl | ⟨post', y, rfl⟩
  · have hl : (pre ++ [x]).getLast? = some x := List.getLast?_concat pre
    have hset : (pre ++ [x]).set pre.length x = pre ++ [x] := by
      rw [List.set_append_right _ _ (le_refl _)]
      simp
    simp [swapRemove, hl, hset, List.dropLast_concat]
  · simp only [List.concat_eq_append]
    have hassoc : pre ++ x :: (post' ++ [y]) = (pre ++ x :: post') ++ [y] := by
      simp
    have hl : (pre ++ x :: (post' ++ [y])).getLast? = some y := by
      rw [hassoc]
      exact List.getLast?_concat _
    have hset : (pre ++ x :: (post' ++ [y])).set pre.length y
        = pre ++ y :: (post' ++ [y]) := by
      rw [List.set_append_right _ _ (le_refl _)]
      simp
    have hdrop : (pre ++ y :: (post' ++ [y])).dropLast = pre ++ y :: post' := by
      rw [show pre ++ y :: (post' ++ [y]) = (pre ++ y :: post') ++ [y] by simp]
      exact List.dropLast_concat
    simp only [swapRemove, hl, hset, hdrop]
    exact (List.Perm.append_left pre (List.perm_append_singleton y post')).symm

end ConnLemmas

/-! Helper lemmas about `drop_pending` and service lookups. -/

section NetLemmas

variable {UID : Type} [DecidableEq UID]

theorem dropPending_queue_lookup_self (s : NetState UID) (a b : Endpoint) :
    alookup (dropPending s a b).queue (a, b)
      = (alookup s.queue (a, b)).map (fun _ => []) := by
  cases h : alookup s.queue (a, b) with
  | none => simp [dropPending, h]
  | some d => simp [dropPending, h, alookup_aset_self_of_some _ h]

theorem dropPending_queue_lookup_ne (s : NetState UID) (a b : Endpoint)
    {k : PairKey} (hk : k ≠ (a, b)) :
    alookup (dropPending s a b).queue k = alookup s.queue k := by
  cases h : alookup s.queue (a, b) with
  | none => simp [dropPending, h]
  | some d => simp [dropPending, h, alookup_aset_ne _ hk]

theorem dropPending_services (s : NetState UID) (a b : Endpoint) :
    (dropPending s a b).services = s.services := by
  cases h : alookup s.queue (a, b) with
  | none => simp [dropPending, h]
  | some d => simp [dropPending, h]

end NetLemmas

/-! Termination of the drain loop: every successful `pop_packet` /
`process_packet` iteration strictly decreases the total queue weight, so
the fuelled loop with any fuel above `weight s` computes the exact state at
which the Rust `while let` loop stops.  This justifies the fuel choice in
`poll`. -/

section PollTermination

variable {UID : Type} [DecidableEq UID]

theorem pweight_pos (p : Packet UID) : 1 ≤ pweight p := by
  cases p <;> simp [pweight]

theorem toFailure_pweight {p f : Packet UID} (h : p.toFailure = some f) :
    pweight p = 2 ∧ pweight f = 1 := by
  cases p with
  | bootstrapRequest u k =>
      obtain rfl : Packet.bootstrapFailure = f := Option.some.inj h
      exact ⟨rfl, rfl⟩
  | connectRequest a b =>
      obtain rfl : Packet.connectFailure b a = f := Option.some.inj h
      exact ⟨rfl, rfl⟩
  | bootstrapSuccess u => exact Option.noConfusion h
  | bootstrapFailure => exact Option.noConfusion h
  | connectSuccess a b => exact Option.noConfusion h
  | connectFailure a b => exact Option.noConfusion h
  | message d => exact Option.noConfusion h
  | disconnect => exact Option.noConfusion h

theorem queueWeight_queuePush (q : List (PairKey × List (Packet UID)))
    (k : PairKey) (p : Packet UID) :
    queueWeight (queuePush q k p) = queueWeight q + pweight p := by
  induction q with
  | nil => simp [queuePush, queueWeight]
  | cons hd tl ih =>
      obtain ⟨k1, d1⟩ := hd
      by_cases hk : k = k1
      · simp [queuePush, queueWeight, hk]
        ring
      · simp [queuePush, queueWeight, hk, ih]
        ring

theorem weight_netSend (s : NetState UID) (a b : Endpoint) (p : Packet UID) :
    weight (netSend s a b p) = weight s + pweight p :=
  queueWeight_queuePush s.queue (a, b) p

theorem weight_netSendAll (src : Endpoint) :
    ∀ (outs : List (Endpoint × Packet UID)) (s : NetState UID),
      weight (netSendAll s src outs)
        = weight s + (outs.map (fun o => pweight o.2)).sum
  | [], s => by simp [netSendAll]
  | (dst, p) :: rest, s => by
      simp [netSendAll, weight_netSendAll src rest (netSend s src dst p),
        weight_netSend]
      ring

theorem queueWeight_aerase {q : List (PairKey × List (Packet UID))}
    {k : PairKey} {d : List (Packet UID)} (h : alookup q k = some d) :
    queueWeight (aerase q k) + (d.map pweight).sum = queueWeight q := by
  induction q with
  | nil => simp [alookup] at h
  | cons hd tl ih =>
      obtain ⟨k1, d1⟩ := hd
      by_cases hk : k = k1
      · simp [alookup, hk] at h
        subst h
        simp [aerase, hk, queueWeight]
        ring
      · simp [alookup, hk] at h
        simp [aerase, hk, queueWeight]
        have := ih h
        omega

theorem queueWeight_aset {q : List (PairKey × List (Packet UID))}
    {k : PairKey} {d : List (Packet UID)} (d' : List (Packet UID))
    (h : alookup q k = some d) :
    queueWeight (aset q k d') + (d.map pweight).sum
      = queueWeight q + (d'.map pweight).sum := by
  induction q with
  | nil => simp [alookup] at h
  | cons hd tl ih =>
      obtain ⟨k1, d1⟩ := hd
      by_cases hk : k = k1
      · simp [alookup, hk] at h
        subst h
        simp [aset, hk, queueWeight]
        ring
      · simp [alookup, hk] at h
        simp [aset, hk, queueWeight]
        have := ih h
        omega

theorem popPacket_weight {s s1 : NetState UID} {snd rcv : Endpoint}
    {p : Packet UID} (h : popPacket s = (some (snd, rcv, p), s1)) :
    weight s1 + pweight p = weight s := by
  simp only [popPacket] at h
  by_cases hk : eligibleKeys s = []
  · rw [if_pos hk] at h
    exact absurd (congrArg Prod.fst h) (by simp)
  · rw [if_neg hk] at h
    cases hget : (eligibleKeys s).get? (s.rng.headD 0 % (eligibleKeys s).length) with
    | none =>
        simp only [hget] at h
        exact absurd (congrArg Prod.fst h) (by simp)
    | some key =>
        obtain ⟨a, b⟩ := key
        simp only [hget] at h
        cases hlk : alookup s.queue (a, b) with
        | none =>
            simp only [hlk] at h
            exact absurd (congrArg Prod.fst h) (by simp)
        | some d =>
            cases d with
            | nil =>
                simp only [hlk] at h
                exact absurd (congrArg Prod.fst h) (by simp)
            | cons p0 rest =>
                simp only [hlk] at h
                have hfst := congrArg Prod.fst h
                simp only [Option.some.injEq, Prod.mk.injEq] at hfst
                obtain ⟨rfl, rfl, rfl⟩ := hfst
                have hsnd := congrArg Prod.snd h
                by_cases hrest : rest = []
                · subst hrest
                  rw [if_pos rfl] at hsnd
                  have h2 : ({ s with rng := s.rng.tail, queue := aerase s.queue (a, b) } : NetState UID) = s1 := hsnd
                  have hq : s1.queue = aerase s.queue (a, b) := by rw [← h2]
                  show queueWeight s1.queue + pweight p0 = queueWeight s.queue
                  rw [hq]
                  have := queueWeight_aerase (q := s.queue) (k := (a, b)) hlk
                  simp at this
                  omega
                · rw [if_neg hrest] at hsnd
                  have h2 : ({ s with rng := s.rng.tail, queue := aset s.queue (a, b) rest } : NetState UID) = s1 := hsnd
                  have hq : s1.queue = aset s.queue (a, b) rest := by rw [← h2]
                  show queueWeight s1.queue + pweight p0 = queueWeight s.queue
                  rw [hq]
                  have := queueWeight_aset (q := s.queue) (k := (a, b)) rest hlk
                  simp [queueWeight] at this ⊢
                  omega

theorem receivePacket_outs_weight {svc svc1 : ServiceState UID}
    {snd : Endpoint} {p : Packet UID} {outs : List (Endpoint × Packet UID)}
    (h : receivePacket svc snd p = some (svc1, outs)) :
    (outs.map (fun o => pweight o.2)).sum < pweight p := by
  cases p with
  | bootstrapRequest uid kind =>
      simp only [receivePacket, handleBootstrapRequest] at h
      split at h
      · split at h
        · exact Option.noConfusion h
        · simp only [Option.some.injEq, Prod.mk.injEq] at h
          obtain ⟨-, rfl⟩ := h
          simp [pweight]
      · simp only [Option.some.injEq, Prod.mk.injEq] at h
        obtain ⟨-, rfl⟩ := h
        simp [pweight]
  | connectRequest theirId other =>
      simp only [receivePacket, handleConnectRequest] at h
      split at h
      · simp only [Option.some.injEq, Prod.mk.injEq] at h
        obtain ⟨-, rfl⟩ := h
        simp [pweight]
      · split at h
        · exact Option.noConfusion h
        · simp only [Option.some.injEq, Prod.mk.injEq] at h
          obtain ⟨-, rfl⟩ := h
          simp [pweight]
  | bootstrapSuccess uid =>
      simp only [receivePacket, Option.some.injEq, Prod.mk.injEq] at h
      obtain ⟨-, rfl⟩ := h
      simp [pweight]
  | bootstrapFailure =>
      simp only [receivePacket, Option.some.injEq, Prod.mk.injEq] at h
      obtain ⟨-, rfl⟩ := h
      simp [pweight]
  | connectSuccess theirId other =>
      simp only [receivePacket, Option.some.injEq, Prod.mk.injEq] at h
      obtain ⟨-, rfl⟩ := h
      simp [pweight]
  | connectFailure theirId other =>
      simp only [receivePacket, Option.some.injEq, Prod.mk.injEq] at h
      obtain ⟨-, rfl⟩ := h
      simp [pweight]
  | message data =>
      simp only [receivePacket, Option.map_eq_some'] at h
      obtain ⟨a, -, hpair⟩ := h
      simp only [Prod.mk.injEq] at hpair
      obtain ⟨-, rfl⟩ := hpair
      simp [pweight]
  | disconnect =>
      simp only [receivePacket, Option.some.injEq, Prod.mk.injEq] at h
      obtain ⟨-, rfl⟩ := h
      simp [pweight]

theorem processPacket_weight {s s2 : NetState UID} {snd rcv : Endpoint}
    {p : Packet UID} (h : processPacket s snd rcv p = some s2) :
    weight s2 + 1 ≤ weight s + pweight p := by
  unfold processPacket at h
  split at h
  · rename_i failure hf
    have hsome : p.toFailure = some failure := by
      by_cases hb : connectionBlocked s snd rcv
      · simpa [hb] using hf
      · simp [hb] at hf
    obtain ⟨hp2, hf1⟩ := toFailure_pweight hsome
    obtain rfl := Option.some.inj h
    rw [weight_netSend]
    omega
  · unfold deliverPacket at h
    split at h
    · rename_i svc hsvc
      split at h
      · exact absurd h (by simp)
      · rename_i svc1 outs hrecv
        obtain rfl := Option.some.inj h
        rw [weight_netSendAll]
        have hlt := receivePacket_outs_weight hrecv
        have : weight (updService s rcv svc1) = weight s := rfl
        omega
    · split at h
      · rename_i failure hsome
        obtain ⟨hp2, hf1⟩ := toFailure_pweight hsome
        obtain rfl := Option.some.inj h
        rw [weight_netSend]
        omega
      · obtain rfl := Option.some.inj h
        have := pweight_pos p
        omega

theorem pollStep_weight_lt {s s1 s2 : NetState UID} {snd rcv : Endpoint}
    {p : Packet UID} (hpop : popPacket s = (some (snd, rcv, p), s1))
    (hproc : processPacket s1 snd rcv p = some s2) :
    weight s2 < weight s := by
  have h1 := popPacket_weight hpop
  have h2 := processPacket_weight hproc
  omega

theorem pollFuel_congr :
    ∀ (f1 f2 : Nat) (s : NetState UID), weight s < f1 → weight s < f2 →
      pollFuel f1 s = pollFuel f2 s := by
  intro f1
  induction f1 with
  | zero => intro f2 s h1 h2; omega
  | succ a ih =>
      intro f2 s h1 h2
      obtain ⟨b, rfl⟩ : ∃ b, f2 = b + 1 := ⟨f2 - 1, by omega⟩
      have step : ∀ (f : Nat) (t : NetState UID), pollFuel (f + 1) t
          = match popPacket t with
            | (none, t1) => some t1
            | (some (snd, rcv, p), t1) =>
                match processPacket t1 snd rcv p with
                | none => none
                | some t2 => pollFuel f t2 := fun f t => rfl
      rw [step a s, step b s]
      cases hpop : popPacket s with
      | mk opt s1 =>
          cases opt with
          | none => rfl
          | some triple =>
              obtain ⟨snd, rcv, p⟩ := triple
              show (match processPacket s1 snd rcv p with
                    | none => none
                    | some t2 => pollFuel a t2)
                  = (match processPacket s1 snd rcv p with
                    | none => none
                    | some t2 => pollFuel b t2)
              cases hproc : processPacket s1 snd rcv p with
              | none => rfl
              | some s2 =>
                  have hlt := pollStep_weight_lt hpop hproc
                  show pollFuel a s2 = pollFuel b s2
                  exact ih b s2 (by omega) (by omega)

/-- Faithfulness of the fuel choice in `poll`: any fuel bound above the
total packet weight yields the same result, so `poll` computes exactly the
state at which the unbounded Rust `while let` loop stops. -/
theorem poll_eq_pollFuel (s : NetState UID) (f : Nat) (hf : weight s < f) :
    poll s = pollFuel f s :=
  pollFuel_congr (weight s + 1) f s (Nat.lt_succ_self _) hf

end PollTermination

section Claims

variable {UID : Type} [DecidableEq UID]

/-- Claim C10: processing a bootstrap-failure packet when the
outstanding-bootstrap counter is already zero leaves the service unchanged
(counter stays zero, no unsigned underflow, no event); when the counter is
`n + 1` it is decremented to `n`, and the `BootstrapFailed` event is
emitted exactly when that decrement reaches zero while the connection list
is empty. -/
theorem claim_C10_decrement_guard (svc : ServiceState UID) :
    (svc.pendingBootstraps = 0 → handleBootstrapFailure svc = svc) ∧
    (∀ n : Nat, svc.pendingBootstraps = n + 1 →
      (handleBootstrapFailure svc).pendingBootstraps = n ∧
      (n = 0 ∧ svc.connections = [] →
        (handleBootstrapFailure svc).events
          = svc.events ++ [CrustEvent.bootstrapFailed]) ∧
      (¬(n = 0 ∧ svc.connections = []) →
        (handleBootstrapFailure svc).events = svc.events)) := by
  constructor
  · intro h
    simp [handleBootstrapFailure, decrementPendingBootstraps, h]
  · intro n hn
    refine ⟨?_, ?_, ?_⟩
    · simp [handleBootstrapFailure, decrementPendingBootstraps, hn]
      split <;> simp [pushEvent]
    · rintro ⟨hn0, hc⟩
      subst hn0
      simp [handleBootstrapFailure, decrementPendingBootstraps, hn, hc, pushEvent]
    · intro hnot
      simp only [handleBootstrapFailure, decrementPendingBootstraps, hn,
        Nat.succ_ne_zero, if_false, Nat.add_sub_cancel]
      rw [if_neg hnot]

/-- Claim C10 witness: at a concrete service with one outstanding bootstrap
and no connections, the decrement reaches zero and fires `BootstrapFailed`;
at counter zero the service is untouched. -/
theorem claim_C10_witness :
    (handleBootstrapFailure { svcFix 0 10 with pendingBootstraps := 1 }).pendingBootstraps = 0 ∧
    (handleBootstrapFailure { svcFix 0 10 with pendingBootstraps := 1 }).events
      = ({ svcFix 0 10 with pendingBootstraps := 1 } : ServiceState Nat).events
        ++ [CrustEvent.bootstrapFailed] ∧
    handleBootstrapFailure (svcFix 0 10) = svcFix 0 10 := by
  obtain ⟨h0, h1⟩ := claim_C10_decrement_guard
    ({ svcFix 0 10 with pendingBootstraps := 1 } : ServiceState Nat)
  obtain ⟨hp, he, -⟩ := h1 0 (by decide)
  exact ⟨hp, he (by decide),
    (claim_C10_decrement_guard (svcFix 0 10)).1 (by decide)⟩

/-- Claim C9: an incoming message packet whose origin maps to a recorded
connection delivers exactly one `NewMessage` event carrying that identity
and payload to the destination service (and changes nothing else); when no
recorded connection matches the origin, processing is a fatal abort
(`unreachable!`), modelled as `none`, not any recoverable event. -/
theorem claim_C9_message_dispatch (s : NetState UID) (sender receiver : Endpoint)
    (data : List Nat) (svc : ServiceState UID)
    (hs : findService s receiver = some svc) :
    (∀ uid : UID, findUidByEndpoint svc.connections sender = some uid →
      processPacket s sender receiver (.message data)
        = some (updService s receiver (pushEvent svc (.newMessage uid data)))) ∧
    (findUidByEndpoint svc.connections sender = none →
      processPacket s sender receiver (.message data) = none) := by
  constructor
  · intro uid hu
    simp [processPacket, deliverPacket, Packet.toFailure, hs, receivePacket,
      handleMessage, hu, netSendAll]
  · intro hu
    simp [processPacket, deliverPacket, Packet.toFailure, hs, receivePacket,
      handleMessage, hu]

/-- Claim C9 witness: in the two-service fixture with `1` connected to `0`,
a message from `0` to `1` yields the `NewMessage` event, and a message
from the unconnected origin `5` aborts. -/
theorem claim_C9_witness :
    processPacket (netAsym []) 0 1 (Packet.message [7])
      = some (updService (netAsym []) 1
          (pushEvent svcConnTo0 (CrustEvent.newMessage 10 [7]))) ∧
    processPacket (netAsym []) 5 1 (Packet.message [7]) = none := by
  refine ⟨?_, ?_⟩
  · exact (claim_C9_message_dispatch (netAsym []) 0 1 [7] svcConnTo0
      (by decide)).1 10 (by decide)
  · exact (claim_C9_message_dispatch (netAsym []) 5 1 [7] svcConnTo0
      (by decide)).2 (by decide)

/-- Claim C5: when service `a` exists but records no connection to `b`,
`Network::lost_connection(a, b)` is a complete no-op: the state (and with
it every event log) is returned unchanged, regardless of what `b`
records. -/
theorem claim_C5_lost_connection_noop (s : NetState UID) (a b : Endpoint)
    (svcA : ServiceState UID) (hs : findService s a = some svcA)
    (hnc : ∀ c ∈ svcA.connections, c.2 ≠ b) :
    lostConnection s a b = some s := by
  simp [lostConnection, hs, removeConnectionByEndpoint, connPosByEndpoint_eq_none hnc]

/-- Claim C5 witness: with `1` connected to `0` but `0` not connected to
`1` (asymmetric state), forcing a lost connection between `0` and `1` is a
no-op. -/
theorem claim_C5_witness :
    lostConnection (netAsym []) 0 1 = some (netAsym []) :=
  claim_C5_lost_connection_noop (netAsym []) 0 1 (svcFix 0 10)
    (by decide) (by decide)

/-- Claim C3: on a blocked directed pair, a bootstrap request is not
delivered and a bootstrap-failure packet is enqueued on the reverse
direction instead; a connect request likewise yields its connect-failure
counterpart in reverse; every packet with no failure counterpart (plain
message, disconnect notice, success and failure packets) goes through the
normal delivery path unchanged, despite the block. -/
theorem claim_C3_blocked_pair (s : NetState UID) (sender receiver : Endpoint)
    (hb : (sender, receiver) ∈ s.blocked) :
    (∀ (u : UID) (k : CrustUser),
      processPacket s sender receiver (.bootstrapRequest u k)
        = some (netSend s receiver sender .bootstrapFailure)) ∧
    (∀ ourId theirId : UID,
      processPacket s sender receiver (.connectRequest ourId theirId)
        = some (netSend s receiver sender (.connectFailure theirId ourId))) ∧
    (∀ p : Packet UID, p.toFailure = none →
      processPacket s sender receiver p = deliverPacket s sender receiver p) := by
  refine ⟨?_, ?_, ?_⟩
  · intro u k
    simp [processPacket, connectionBlocked, hb, Packet.toFailure]
  · intro ourId theirId
    simp [processPacket, connectionBlocked, hb, Packet.toFailure]
  · intro p hp
    simp [processPacket, hp]

/-- Claim C3 witness: with the pair `(0, 1)` blocked, a bootstrap request
is replaced by a reverse bootstrap failure, and a plain message still
reaches service `1` (which is connected to `0`). -/
theorem claim_C3_witness :
    processPacket (netAsym [(0, 1)]) 0 1 (Packet.bootstrapRequest 10 CrustUser.node)
      = some (netSend (netAsym [(0, 1)]) 1 0 Packet.bootstrapFailure) ∧
    processPacket (netAsym [(0, 1)]) 0 1 (Packet.message [3])
      = deliverPacket (netAsym [(0, 1)]) 0 1 (Packet.message [3]) := by
  obtain ⟨h1, -, h3⟩ := claim_C3_blocked_pair (netAsym [(0, 1)]) 0 1 (by decide)
  exact ⟨h1 10 CrustUser.node, h3 (Packet.message [3]) (by decide)⟩

/-- Claim C2 (code bug): `drop_pending` empties a pair's queue but leaves
the (now empty) entry in the map, contradicting the stated invariant that
an entry exists only while non-empty.  At the concrete failing input the
entry `(1, 0)` survives with an empty deque instead of being removed. -/
theorem claim_C2_drop_pending_keeps_entry :
    (dropPending c2State 1 0).queue = [((1, 0), ([] : List (Packet Nat)))] ∧
    alookup (dropPending c2State 1 0).queue (1, 0) = some [] := by
  constructor <;> rfl

/-- Claim C1 (code bug): at the concrete failing state — an empty `(1, 0)`
entry left behind by `drop_pending` next to a pending disconnect packet on
`(0, 1)`, with the scheduler choosing the empty entry — `poll` returns
(consuming only the one rng value) while the disconnect packet is still
pending, so the drain is not a fixed point. -/
theorem claim_C1_poll_stalls :
    poll c1State = some { c1State with rng := [] } ∧
    alookup ({ c1State with rng := ([] : List Nat) }).queue (0, 1)
      = some [Packet.disconnect] := by
  constructor <;> rfl

/-- Claim C8 counterexample: in `c8State` every directed pair with a
non-empty queue (only `(0, 1)`) is marked delayed, yet the eligible set
computed by `pop_packet` is `[(2, 3)]` — an empty entry left by
`drop_pending` — rather than all pairs with pending work, and the pop
makes no progress even though a packet is pending. -/
theorem claim_C8_counterexample :
    alookup c8State.queue (0, 1) = some [Packet.message []] ∧
    c8State.delayed = [(0, 1)] ∧
    eligibleKeys c8State = [(2, 3)] ∧
    ¬(0, 1) ∈ eligibleKeys c8State ∧
    (popPacket c8State).1 = none := by
  refine ⟨rfl, rfl, rfl, by decide, rfl⟩

/-- Claim C8 (amended): in every state satisfying the intended queue-map
invariant — every entry non-empty, so the map keys are exactly the pairs
with pending work — if every such pair is delayed the eligible set is all
of them, otherwise it is exactly the non-delayed ones; and whenever any
work is pending, `pop_packet` makes progress (returns a packet), so the
drain terminates rather than hanging. -/
theorem claim_C8_full_delay_liveness {UID : Type} [DecidableEq UID]
    (s : NetState UID) (hinv : ∀ e ∈ s.queue, e.2 ≠ []) :
    ((∀ k ∈ s.queue.map Prod.fst, k ∈ s.delayed) →
      eligibleKeys s = s.queue.map Prod.fst) ∧
    (¬(∀ k ∈ s.queue.map Prod.fst, k ∈ s.delayed) →
      eligibleKeys s = (s.queue.map Prod.fst).filter
        (fun k => decide (k ∉ s.delayed))) ∧
    (s.queue ≠ [] → (popPacket s).1.isSome) := by
  have hall : (s.queue.map Prod.fst).all (fun k => decide (k ∈ s.delayed)) = true
      ↔ ∀ k ∈ s.queue.map Prod.fst, k ∈ s.delayed := by
    simp [List.all_eq_true]
  refine ⟨?_, ?_, ?_⟩
  · intro h
    simp only [eligibleKeys]
    rw [if_pos (hall.mpr h)]
  · intro h
    simp only [eligibleKeys]
    rw [if_neg (fun hc => h (hall.mp hc))]
  · intro hq
    have hkeys : eligibleKeys s ≠ [] := by
      simp only [eligibleKeys]
      split
      · simpa using hq
      · rename_i hc
        rw [hall] at hc
        push_neg at hc
        obtain ⟨k, hk, hkd⟩ := hc
        intro hfil
        have := List.filter_eq_nil_iff.mp hfil k hk
        simp [hkd] at this
    simp only [popPacket]
    rw [if_neg hkeys]
    have hidx : s.rng.headD 0 % (eligibleKeys s).length < (eligibleKeys s).length :=
      Nat.mod_lt _ (List.length_pos.mpr hkeys)
    obtain ⟨⟨snd, rcv⟩, hget⟩ :
        ∃ k, (eligibleKeys s).get? (s.rng.headD 0 % (eligibleKeys s).length) = some k :=
      ⟨_, List.get?_eq_get hidx⟩
    rw [hget]
    have hmem : (snd, rcv) ∈ s.queue.map Prod.fst := by
      have hin : (snd, rcv) ∈ eligibleKeys s := by
        have := List.get?_mem hget
        exact this
      simp only [eligibleKeys] at hin
      split at hin
      · exact hin
      · exact List.mem_of_mem_filter hin
    have hsome := alookup_isSome_of_mem_fst hmem
    obtain ⟨d, hd⟩ := Option.isSome_iff_exists.mp hsome
    have hmem2 := alookup_mem hd
    have hne := hinv _ hmem2
    simp only at hne
    obtain ⟨p, rest, rfl⟩ : ∃ p rest, d = p :: rest := by
      cases d with
      | nil => exact absurd rfl hne
      | cons p rest => exact ⟨p, rest, rfl⟩
    simp [hd]

/-- Claim C8 witness: at a concrete state whose single non-empty pair is
delayed, the eligible set is all pairs with pending work and the pop makes
progress. -/
theorem claim_C8_witness :
    eligibleKeys c8WitnessState = c8WitnessState.queue.map Prod.fst ∧
    (popPacket c8WitnessState).1.isSome := by
  obtain ⟨h1, -, h3⟩ := claim_C8_full_delay_liveness c8WitnessState (by decide)
  exact ⟨h1 (by decide), h3 (by decide)⟩

/-- Claim C7: when every hard-coded contact is the service itself or maps
to a blacklisted address, `start_bootstrap` sends no packets (queue and
message-sent flag untouched) and synchronously delivers exactly one
`BootstrapFailed` event, leaving the outstanding counter at zero. -/
theorem claim_C7_bootstrap_no_contacts (s : NetState UID) (ep : Endpoint)
    (svc : ServiceState UID) (blacklist : List Nat) (kind : CrustUser)
    (hs : findService s ep = some svc)
    (hz : ∀ c ∈ svc.hardCodedContacts, c = ep ∨ toSocketAddr c ∈ blacklist) :
    startBootstrap s ep blacklist kind
      = some (updService s ep
          (pushEvent { svc with pendingBootstraps := 0 } .bootstrapFailed)) ∧
    ∀ t, startBootstrap s ep blacklist kind = some t →
      t.queue = s.queue ∧ t.messageSent = s.messageSent ∧
      findService t ep
        = some (pushEvent { svc with pendingBootstraps := 0 } .bootstrapFailed) := by
  have hfil : svc.hardCodedContacts.filter
      (fun c => !decide (c = ep) && !decide (toSocketAddr c ∈ blacklist)) = [] := by
    rw [List.filter_eq_nil_iff]
    intro c hc
    rcases hz c hc with h | h <;> simp [h]
  have hmain : startBootstrap s ep blacklist kind
      = some (updService s ep
          (pushEvent { svc with pendingBootstraps := 0 } .bootstrapFailed)) := by
    simp [startBootstrap, hs, hfil]
  refine ⟨hmain, ?_⟩
  intro t ht
  rw [hmain] at ht
  obtain rfl : updService s ep
      (pushEvent { svc with pendingBootstraps := 0 } .bootstrapFailed) = t :=
    Option.some.inj ht
  refine ⟨rfl, rfl, ?_⟩
  exact alookup_aset_self_of_some _ hs

/-- Claim C7 witness: a service whose two contacts are itself and a
blacklisted address sends nothing and gets exactly one `BootstrapFailed`. -/
theorem claim_C7_witness :
    startBootstrap
        { netFix [] with
          services := [(0, { svcFix 0 10 with hardCodedContacts := [0, 1] })] }
        0 [1] CrustUser.node
      = some (updService
          { netFix [] with
            services := [(0, { svcFix 0 10 with hardCodedContacts := [0, 1] })] }
          0 (pushEvent { svcFix 0 10 with hardCodedContacts := [0, 1], pendingBootstraps := 0 }
              .bootstrapFailed)) :=
  (claim_C7_bootstrap_no_contacts _ 0
    ({ svcFix 0 10 with hardCodedContacts := [0, 1] } : ServiceState Nat)
    [1] CrustUser.node (by decide) (by decide)).1

/-- Claim C6: for a service `A` (endpoint `epA`) whose connection list
holds an entry `(uidB, epB)` for peer `B`, `disconnect(uidB)` returns
`true`, removes exactly that entry (emitting no event at `A`), leaves the
pair `(epA, epB)` holding exactly the new disconnect notice, leaves no
pending packet on `(epB, epA)`, touches no other queue pair and no other
service; `B`, upon processing the disconnect notice, removes its entry for
`A` and receives exactly one `LostPeer` event; and with no connection to
`uidB` the call returns `false` and changes nothing. -/
theorem claim_C6_disconnect_asymmetry (s : NetState UID) (epA : Endpoint)
    (uidB : UID) (svcA : ServiceState UID) (hs : findService s epA = some svcA) :
    ((∀ c ∈ svcA.connections, c.1 ≠ uidB) → disconnect s epA uidB = (false, s)) ∧
    (∀ (epB : Endpoint) (pre post : List (UID × Endpoint)), epA ≠ epB →
      svcA.connections = pre ++ (uidB, epB) :: post →
      (∀ c ∈ pre, c.1 ≠ uidB) → (∀ c ∈ post, c.1 ≠ uidB) →
      (disconnect s epA uidB).1 = true ∧
      (∃ svcA' : ServiceState UID,
        findService (disconnect s epA uidB).2 epA = some svcA' ∧
        svcA'.events = svcA.events ∧
        svcA'.connections.Perm (pre ++ post) ∧
        (∀ e : Endpoint, (uidB, e) ∉ svcA'.connections)) ∧
      alookup (disconnect s epA uidB).2.queue (epA, epB)
        = some [Packet.disconnect] ∧
      (alookup (disconnect s epA uidB).2.queue (epB, epA) = none ∨
        alookup (disconnect s epA uidB).2.queue (epB, epA) = some []) ∧
      (∀ k : PairKey, k ≠ (epA, epB) → k ≠ (epB, epA) →
        alookup (disconnect s epA uidB).2.queue k = alookup s.queue k) ∧
      (∀ ep : Endpoint, ep ≠ epA →
        findService (disconnect s epA uidB).2 ep = findService s ep)) ∧
    (∀ (svcB : ServiceState UID) (epA' : Endpoint) (uidA' : UID)
        (preB postB : List (UID × Endpoint)),
      svcB.connections = preB ++ (uidA', epA') :: postB →
      (∀ c ∈ preB, c.2 ≠ epA') →
      (handleDisconnect svcB epA').events = svcB.events ++ [CrustEvent.lostPeer uidA'] ∧
      (handleDisconnect svcB epA').connections.Perm (preB ++ postB)) := by
  refine ⟨?_, ?_, ?_⟩
  · intro hnc
    simp [disconnect, hs, removeConnectionByUid, connPosByUid_eq_none hnc]
  · intro epB pre post hne hconn hpre hpost
    have hpos : connPosByUid svcA.connections uidB = some pre.length := by
      rw [hconn]
      exact connPosByUid_append pre post uidB epB hpre
    have hget : svcA.connections.get? pre.length = some (uidB, epB) := by
      rw [hconn]
      exact get?_append_cons pre post (uidB, epB)
    set svcA' : ServiceState UID :=
      { svcA with connections := swapRemove svcA.connections pre.length } with hsvc
    have hget' : svcA.connections[pre.length]? = some (uidB, epB) := by
      simpa using hget
    have hrm : removeConnectionByUid svcA uidB = (some epB, svcA') := by
      simp [removeConnectionByUid, hpos, hget']
    have hres1 : (disconnect s epA uidB).1 = true := by
      simp [disconnect, hs, hrm]
    have hres2 : (disconnect s epA uidB).2
        = netSend (dropPending (dropPending (updService s epA svcA') epA epB)
            epB epA) epA epB .disconnect := by
      simp [disconnect, hs, hrm]
    have hperm : svcA'.connections.Perm (pre ++ post) := by
      rw [hsvc]
      simp only [hconn]
      exact swapRemove_append_cons_perm pre post (uidB, epB)
    have hne2 : ((epA, epB) : PairKey) ≠ (epB, epA) := by
      simp [Prod.ext_iff]
      intro h
      exact absurd h hne
    have hservices : (netSend (dropPending (dropPending (updService s epA svcA') epA epB)
          epB epA) epA epB Packet.disconnect).services
        = (dropPending (dropPending (updService s epA svcA') epA epB) epB epA).services :=
      rfl
    refine ⟨hres1, ⟨svcA', ?_, rfl, hperm, ?_⟩, ?_, ?_, ?_, ?_⟩
    · rw [hres2]
      unfold findService
      rw [hservices, dropPending_services, dropPending_services]
      exact alookup_aset_self_of_some _ hs
    · intro e hmem
      have := hperm.mem_iff.mp hmem
      rcases List.mem_append.mp this with h | h
      · exact hpre _ h rfl
      · exact hpost _ h rfl
    · rw [hres2]
      show alookup (queuePush (dropPending (dropPending (updService s epA svcA') epA epB)
          epB epA).queue (epA, epB) Packet.disconnect) (epA, epB) = some [Packet.disconnect]
      rw [alookup_queuePush_self, dropPending_queue_lookup_ne _ _ _ hne2,
        dropPending_queue_lookup_self]
      cases alookup (updService s epA svcA').queue (epA, epB) <;> rfl
    · rw [hres2]
      show alookup (queuePush (dropPending (dropPending (updService s epA svcA') epA epB)
            epB epA).queue (epA, epB) Packet.disconnect) (epB, epA) = none ∨
          alookup (queuePush (dropPending (dropPending (updService s epA svcA') epA epB)
            epB epA).queue (epA, epB) Packet.disconnect) (epB, epA) = some []
      rw [alookup_queuePush_ne _ _ hne2.symm, dropPending_queue_lookup_self]
      cases alookup (dropPending (updService s epA svcA') epA epB).queue (epB, epA) with
      | none => exact Or.inl rfl
      | some d => exact Or.inr rfl
    · intro k hk1 hk2
      rw [hres2]
      show alookup (queuePush (dropPending (dropPending (updService s epA svcA') epA epB)
          epB epA).queue (epA, epB) Packet.disconnect) k = alookup s.queue k
      rw [alookup_queuePush_ne _ _ hk1, dropPending_queue_lookup_ne _ _ _ hk2,
        dropPending_queue_lookup_ne _ _ _ hk1]
      rfl
    · intro ep hep
      rw [hres2]
      unfold findService
      rw [hservices, dropPending_services, dropPending_services]
      exact alookup_aset_ne _ hep
  · intro svcB epA' uidA' preB postB hconnB hpreB
    have hposB : connPosByEndpoint svcB.connections epA' = some preB.length := by
      rw [hconnB]
      exact connPosByEndpoint_append preB postB uidA' epA' hpreB
    have hgetB : svcB.connections.get? preB.length = some (uidA', epA') := by
      rw [hconnB]
      exact get?_append_cons preB postB (uidA', epA')
    have hgetB' : svcB.connections[preB.length]? = some (uidA', epA') := by
      simpa using hgetB
    have hrmB : removeConnectionByEndpoint svcB epA'
        = (some uidA',
           { svcB with connections := swapRemove svcB.connections preB.length }) := by
      simp [removeConnectionByEndpoint, hposB, hgetB']
    constructor
    · simp [handleDisconnect, hrmB, pushEvent]
    · simp only [handleDisconnect, hrmB, pushEvent]
      simp only [hconnB]
      exact swapRemove_append_cons_perm preB postB (uidA', epA')

/-- Claim C6 witness: in the mutually-connected two-service fixture,
disconnecting `11` from service `0` returns `true`, removes the entry,
leaves exactly the disconnect notice on `(0, 1)`, and service `1`
processing that notice loses its entry and gets exactly one `LostPeer`. -/
theorem claim_C6_witness :
    (disconnect (netMutual [Packet.message [5]]) 0 11).1 = true ∧
    alookup (disconnect (netMutual [Packet.message [5]]) 0 11).2.queue (0, 1)
      = some [Packet.disconnect] ∧
    (alookup (disconnect (netMutual [Packet.message [5]]) 0 11).2.queue (1, 0) = none ∨
      alookup (disconnect (netMutual [Packet.message [5]]) 0 11).2.queue (1, 0) = some []) ∧
    (handleDisconnect svcConnTo0 0).events
      = svcConnTo0.events ++ [CrustEvent.lostPeer 10] ∧
    (handleDisconnect svcConnTo0 0).connections.Perm [] := by
  obtain ⟨-, h2, h3⟩ := claim_C6_disconnect_asymmetry
    (netMutual [Packet.message [5]]) 0 11 (svcMutual0) (by decide)
  obtain ⟨ha, -, hc, hd, -, -⟩ := h2 1 [] [] (by decide) (by decide)
    (by decide) (by decide)
  obtain ⟨he, hf⟩ := h3 svcConnTo0 0 10 [] [] (by decide) (by decide)
  exact ⟨ha, hc, hd, he, by simpa using hf⟩

/-- Claim C4: the duplicate-race path of `handle_connect_request` (an exact
`(their_id, origin)` connection already recorded) is a complete no-op — no
event, no reply, no state change; and for any two not-yet-connected started
services that each enqueue a connect request to the other before any drain,
after the drain (under every scheduling choice) each side holds exactly one
connection entry for the other.  Each side's log gains exactly the two
documented `ConnectSuccess` events (one from handling the peer's request,
one from handling the success reply) — none from the duplicate-race path,
which, as the first conjunct shows, never emits. -/
theorem claim_C4_simultaneous_connect {UID : Type} [DecidableEq UID]
    (epA epB : Endpoint) (hne : epA ≠ epB) (uidA uidB : UID)
    (la lb : Bool) (ca cb wa wb : List Endpoint) (pa pb : Nat)
    (evA evB : List (CrustEvent UID)) (mss ne0 : Nat) (m : Bool)
    (c1 c2 c3 c4 : Nat) (r : List Nat) :
    (∀ (svc : ServiceState UID) (pe : Endpoint) (tid : UID),
        isConnected svc pe tid → handleConnectRequest svc pe tid = some (svc, [])) ∧
    (((connect
          { services :=
              [(epA, ⟨epA, some uidA, ca, la, pa, [], wa, evA⟩),
               (epB, ⟨epB, some uidB, cb, lb, pb, [], wb, evB⟩)],
            minSectionSize := mss, nextEndpoint := ne0, queue := [],
            blocked := [], delayed := [], rng := [c1, c2, c3, c4] ++ r,
            messageSent := m }
          epA ⟨uidB, epB⟩).bind
        (fun s1 => connect s1 epB ⟨uidA, epA⟩)).bind poll).map
      (fun sF => ((findService sF epA).map (·.connections),
                  (findService sF epB).map (·.connections),
                  (findService sF epA).map (·.events),
                  (findService sF epB).map (·.events)))
      = some (some [(uidB, epB)], some [(uidA, epA)],
              some (evA ++ [CrustEvent.connectSuccess uidB, CrustEvent.connectSuccess uidB]),
              some (evB ++ [CrustEvent.connectSuccess uidA, CrustEvent.connectSuccess uidA])) := by
  constructor
  · intro svc pe tid h
    simp [handleConnectRequest, h]
  · have hAB : (epA = epB) = False := by simp [hne]
    have hBA : (epB = epA) = False := by simp [Ne.symm hne]
    rcases Nat.mod_two_eq_zero_or_one c1 with h1 | h1 <;>
      rcases Nat.mod_two_eq_zero_or_one c3 with h3 | h3 <;>
        simp [connect, findService, alookup, netSend, queuePush, poll, weight, queueWeight,
          pweight, pollFuel, popPacket, eligibleKeys, processPacket, deliverPacket,
          receivePacket, handleConnectRequest, handleConnectSuccess, addRendezvousConnection,
          addConnection, isConnected, pushEvent, updService, netSendAll, aset, aerase,
          connectionBlocked, Packet.toFailure, hAB, hBA, h1, h3, Nat.mod_one]

/-- Claim C4 witness: the concrete simultaneous-connect race between the
fresh services `0` and `1` drains to exactly one connection entry per side,
and the duplicate-race path at a concretely connected service is a no-op. -/
theorem claim_C4_witness :
    handleConnectRequest svcConnTo0 0 10 = some (svcConnTo0, []) ∧
    (((connect
          { services :=
              [(0, ⟨0, some 10, [], false, 0, [], [], []⟩),
               (1, ⟨1, some 11, [], false, 0, [], [], []⟩)],
            minSectionSize := 8, nextEndpoint := 2, queue := [],
            blocked := [], delayed := [], rng := [0, 0, 0, 0] ++ [],
            messageSent := false }
          0 ⟨11, 1⟩).bind
        (fun s1 => connect s1 1 ⟨10, 0⟩)).bind poll).map
      (fun sF => ((findService sF 0).map (·.connections),
                  (findService sF 1).map (·.connections),
                  (findService sF 0).map (·.events),
                  (findService sF 1).map (·.events)))
      = some (some [(11, 1)], some [(10, 0)],
              some ([] ++ [CrustEvent.connectSuccess 11, CrustEvent.connectSuccess 11]),
              some ([] ++ [CrustEvent.connectSuccess 10, CrustEvent.connectSuccess 10])) := by
  obtain ⟨hdedup, htrace⟩ := claim_C4_simultaneous_connect 0 1 (by decide) 10 11
    false false [] [] [] [] 0 0 [] [] 8 2 false 0 0 0 0 []
  exact ⟨hdedup svcConnTo0 0 10 (by decide), htrace⟩

end Claims

end MockCrust
